import Mathlib

/-
Verification of the mbus schedule-resolution core.

The definitions below are a shallow embedding of the TypeScript sources:
  * the schedules API route handler (Brezavta API generation): time utilities
    `secondsToTime` / `timeToMinutes`, the normalization pipeline, the
    60-second cache with legacy-URL invalidation, and the `GET` handler;
  * the page-level group aggregation: `getMergedSchedules` with its local,
    unguarded `timeToMinutes` and the stable merge of several stop/route pairs.

JavaScript numbers that can be NaN or Infinity are modelled by `JsNum`.
Wall-clock reads (`Date.now()`, current minutes) are passed as explicit
parameters; the upstream axios call is an explicit `Except` parameter.
JavaScript `Array.prototype.sort` (stable since ES2019) is modelled by a
stable insertion sort driven by the comparator's sign.
-/

namespace MBus

/-- Result domain of JavaScript numeric expressions appearing in the time
utilities: a non-negative integer, positive infinity, or NaN. -/
inductive JsNum where
  | finite (val : Nat)
  | posInf
  | nan
deriving DecidableEq, Repr

/-- Whether a `JsNum` is an ordinary (finite) number. -/
def JsNum.isFinite : JsNum → Bool
  | .finite _ => true
  | _ => false

/-- Big-endian decimal value of a run of digit characters, as accumulated by
`Number` on an all-digit string. -/
def digitsToNat (l : List Char) : Nat :=
  l.foldl (fun a c => a * 10 + (c.toNat - 48)) 0

/-- Model of JavaScript `Number(s)` on the string fragment this code
exercises: the empty string coerces to `0`, an all-digit string to its decimal
value, and anything else to NaN. -/
def jsNumberChars (l : List Char) : JsNum :=
  if l = [] then .finite 0
  else if l.all Char.isDigit then .finite (digitsToNat l)
  else .nan

/-- Character for a single decimal digit. -/
def digitChar (d : Nat) : Char := Char.ofNat (48 + d)

/-- Little-endian decimal digits of `n`, with explicit fuel so that the
recursion is structural (any fuel of at least `n` is enough). -/
def natDigitsRev (fuel n : Nat) : List Nat :=
  match fuel with
  | 0 => []
  | fuel + 1 => if n = 0 then [] else n % 10 :: natDigitsRev fuel (n / 10)

/-- Decimal rendering of a natural number, as produced by JavaScript
`Number.prototype.toString` on a non-negative integer. -/
def natToChars (n : Nat) : List Char :=
  if n = 0 then ['0'] else (natDigitsRev n n).reverse.map digitChar

/-- Model of `padStart(2, '0')`. -/
def padStart2 (l : List Char) : List Char :=
  if 2 ≤ l.length then l else List.replicate (2 - l.length) '0' ++ l

/-- `secondsToTime` from the route handler: convert seconds since midnight to
zero-padded `"HH:MM"` by floor division (no rounding of seconds). -/
def secondsToTime (seconds : Nat) : String :=
  let hours := seconds / 3600
  let minutes := seconds % 3600 / 60
  String.mk (padStart2 (natToChars hours) ++ ':' :: padStart2 (natToChars minutes))

/-- Split a character list on a separator, auxiliary accumulator version;
models `String.prototype.split`, which always yields at least one field. -/
def splitOnCharAux (sep : Char) : List Char → List Char → List (List Char)
  | [], acc => [acc.reverse]
  | c :: cs, acc =>
    if c = sep then acc.reverse :: splitOnCharAux sep cs []
    else splitOnCharAux sep cs (c :: acc)

/-- Split a character list on a separator character. -/
def splitOnChar (sep : Char) (l : List Char) : List (List Char) :=
  splitOnCharAux sep l []

/-- `timeToMinutes` from the route handler: split on `':'`, coerce the first
two fields with `Number`, return positive infinity when either field is NaN
(the guard uses `Number.isNaN`, which is false on `undefined`), otherwise
compute `hours * 60 + minutes` with JavaScript arithmetic. -/
def timeToMinutes (time : String) : JsNum :=
  let parts := (splitOnChar ':' time.toList).map jsNumberChars
  let hours := parts[0]?
  let minutes := parts[1]?
  if hours = some JsNum.nan ∨ minutes = some JsNum.nan then .posInf
  else
    match hours, minutes with
    | some (.finite h), some (.finite m) => .finite (h * 60 + m)
    | some .posInf, some (.finite _) => .posInf
    | some (.finite _), some .posInf => .posInf
    | some .posInf, some .posInf => .posInf
    | _, _ => .nan

/-- The page-local `timeToMinutes` used by the group merge: identical parse
but with no NaN guard, so a malformed field propagates NaN into the sum. -/
def pageTimeToMinutes (time : String) : JsNum :=
  let parts := (splitOnChar ':' time.toList).map jsNumberChars
  match parts[0]?, parts[1]? with
  | some (JsNum.finite h), some (JsNum.finite m) => .finite (h * 60 + m)
  | some JsNum.posInf, some (JsNum.finite _) => .posInf
  | some (JsNum.finite _), some JsNum.posInf => .posInf
  | some JsNum.posInf, some JsNum.posInf => .posInf
  | _, _ => .nan

/-- Whether `pat` occurs at the head of the second list. -/
def leadingMatch : List Char → List Char → Bool
  | [], _ => true
  | _ :: _, [] => false
  | p :: ps, c :: cs => p = c && leadingMatch ps cs

/-- Contiguous-substring test on character lists, modelling
`String.prototype.includes`. -/
def containsSub : List Char → List Char → Bool
  | [], pat => pat.isEmpty
  | h :: t, pat => leadingMatch pat (h :: t) || containsSub t pat

/-- `s.includes(pat)` on strings. -/
def stringIncludes (s pat : String) : Bool :=
  containsSub s.toList pat.toList

/-- The cache self-heal test from the handler: a cached payload URL of the
decommissioned API generation contains both `'/stops/'` and `'/arrivals'`.
An empty URL is falsy in the source and fails the test here as well. -/
def legacyUrl (url : String) : Bool :=
  stringIncludes url "/stops/" && stringIncludes url "/arrivals"

/-- `Schedule` shape produced by the route handler. -/
structure Schedule where
  time : String
  destination : Option String := none
deriving DecidableEq, Repr

/-- Upstream arrival record (`BrezavtaArrival`); fields the handler never
reads are omitted from the embedding. -/
structure BrezavtaArrival where
  route_short_name : String
  trip_headsign : String
  realtime : Bool
  passed : Bool
  arrival_scheduled : Nat
  arrival_realtime : Nat
deriving DecidableEq, Repr

/-- `ScheduleResponsePayload`: the body returned by the route handler. -/
structure ScheduleResponsePayload where
  stop : String
  route : String
  date : String
  schedules : List Schedule
  url : String
  note : Option String := none
deriving DecidableEq, Repr

/-- One entry of the module-level `scheduleCache` map. -/
structure CacheEntry where
  timestamp : Nat
  payload : ScheduleResponsePayload
deriving DecidableEq, Repr

/-- The `scheduleCache` map, keyed by `stopId + "-" + routeId`. -/
abbrev Cache := List (String × CacheEntry)

/-- `Map.get` on the cache. -/
def cacheLookup : Cache → String → Option CacheEntry
  | [], _ => none
  | e :: t, k => if e.1 = k then some e.2 else cacheLookup t k

/-- `Map.delete` on the cache. -/
def cacheErase : Cache → String → Cache
  | [], _ => []
  | e :: t, k => if e.1 = k then cacheErase t k else e :: cacheErase t k

/-- `Map.set` on the cache: unconditional overwrite of the key. -/
def cacheSet (c : Cache) (k : String) (v : CacheEntry) : Cache :=
  cacheErase c k ++ [(k, v)]

/-- Body of a handler response: either the `{error: ...}` JSON for a caller
error or a `ScheduleResponsePayload`. -/
inductive GetBody where
  | jsonError (msg : String)
  | payload (p : ScheduleResponsePayload)
deriving DecidableEq, Repr

/-- Observable outcome of one `GET` call: HTTP status, body, the cache state
after the call, and whether the call went to the upstream source (as opposed
to being served from the cache or rejected before any I/O). -/
structure GetResult where
  status : Nat
  body : GetBody
  cache : Cache
  fetched : Bool
deriving DecidableEq, Repr

/-- Stable insertion of `a` into a list: `a` goes before the first element
`b` with `le a b`. -/
def jsOrderedInsert (le : α → α → Bool) (a : α) : List α → List α
  | [] => [a]
  | b :: l => if le a b then a :: b :: l else b :: jsOrderedInsert le a l

/-- Model of `Array.prototype.sort` with a comparator: a stable sort placing
`x` before `y` whenever the comparator orders them strictly and preserving
input order otherwise. `le x y` renders "the comparator does not require `x`
after `y`". -/
def jsSort (le : α → α → Bool) : List α → List α
  | [] => []
  | a :: l => jsOrderedInsert le a (jsSort le l)

/-- `CACHE_TTL_MS` from the handler. -/
def CACHE_TTL_MS : Nat := 60 * 1000

/-- `WEBSITE_BASE_URL` from the handler. -/
def WEBSITE_BASE_URL : String := "https://brezavta.si"

/-- Effective arrival seconds: the realtime arrival when the record is
realtime, otherwise the scheduled arrival. -/
def effectiveArrival (a : BrezavtaArrival) : Nat :=
  if a.realtime then a.arrival_realtime else a.arrival_scheduled

/-- Comparator discipline of the handler's sort (`timeA - timeB`). -/
def arrivalLe (a b : BrezavtaArrival) : Bool :=
  decide (effectiveArrival a ≤ effectiveArrival b)

/-- Conversion of an arrival to the `Schedule` shape; an empty headsign is
falsy and becomes an absent destination. -/
def toSchedule (a : BrezavtaArrival) : Schedule :=
  { time := secondsToTime (effectiveArrival a)
    destination := if a.trip_headsign = "" then none else some a.trip_headsign }

/-- JavaScript `x > m` for a `JsNum` against current minutes: NaN compares
false, positive infinity compares true. -/
def jsGtNow : JsNum → Nat → Bool
  | .finite v, m => decide (m < v)
  | .posInf, _ => true
  | .nan, _ => false

/-- The arrival pipeline of the handler before conversion: filter by route
designator (the route parameter is always truthy on validated requests),
drop passed arrivals, sort by effective time, take the next 3. -/
def normalizeArrivals (routeId : String) (arrivals : List BrezavtaArrival) :
    List BrezavtaArrival :=
  let byRoute := if routeId = "" then arrivals
    else arrivals.filter (fun a => a.route_short_name == routeId)
  let notPassed := byRoute.filter (fun a => !a.passed)
  (jsSort arrivalLe notPassed).take 3

/-- The note attached when no strictly-future schedule remains. -/
def noMoreBusesNote : String := "No more buses today - showing next available departures"

/-- The note attached by the catch-all failure path. -/
def errorNote : String := "Unable to fetch schedule data from API"

/-- The successful-fetch body: normalize the arrivals, re-filter to
strictly-future times, fall back to the pre-filter top 3 with the
no-more-buses note when the future filter empties a non-empty list. -/
def computeResult (stopId routeId datum : String) (currentMinutes : Nat)
    (arrivals : List BrezavtaArrival) : ScheduleResponsePayload :=
  let schedules := (normalizeArrivals routeId arrivals).map toSchedule
  let futureSchedules :=
    schedules.filter (fun s => jsGtNow (timeToMinutes s.time) currentMinutes)
  { stop := stopId
    route := routeId
    date := datum
    schedules := if futureSchedules.isEmpty then schedules.take 3 else futureSchedules
    url := WEBSITE_BASE_URL ++ "/stop/MARPROM:" ++ stopId
    note := if futureSchedules.isEmpty && !schedules.isEmpty then some noMoreBusesNote
      else none }

/-- The fetch phase of the handler, entered when no usable cache entry was
served: on upstream success the result is computed and written to the cache;
on upstream failure the degraded payload is returned with status 500 and the
cache key is deleted. -/
def fetchStep (c : Cache) (cacheKey stopId routeId datum : String)
    (nowMs currentMinutes : Nat) (upstream : Except Unit (List BrezavtaArrival)) :
    GetResult :=
  match upstream with
  | .ok arrivals =>
    let result := computeResult stopId routeId datum currentMinutes arrivals
    { status := 200
      body := .payload result
      cache := cacheSet c cacheKey { timestamp := nowMs, payload := result }
      fetched := true }
  | .error _ =>
    { status := 500
      body := .payload
        { stop := stopId
          route := routeId
          date := datum
          schedules := []
          url := WEBSITE_BASE_URL ++ "/stop/MARPROM:" ++ stopId
          note := some errorNote }
      cache := cacheErase c cacheKey
      fetched := true }

/-- Model of the default-date expression of the handler: the `datum` query
parameter when truthy, otherwise the current ISO date. -/
def resolveDatum (datumParam : Option String) (today : String) : String :=
  match datumParam with
  | some s => if s = "" then today else s
  | none => today

/-- The route handler `GET`, as a step function over the cache state.
`stopParam`, `routeParam`, `datumParam` are the query parameters (absent or
empty values are falsy), `today` the default date, `nowMs` the `Date.now()`
reading, `currentMinutes` the current-minutes reading taken during the call,
and `upstream` the outcome of the axios request to the arrivals endpoint. -/
def GET (c : Cache) (stopParam routeParam datumParam : Option String) (today : String)
    (nowMs currentMinutes : Nat) (upstream : Except Unit (List BrezavtaArrival)) :
    GetResult :=
  let datum := resolveDatum datumParam today
  match stopParam, routeParam with
  | some stop, some route =>
    if stop = "" ∨ route = "" then
      { status := 400, body := .jsonError "Missing stop or route parameter",
        cache := c, fetched := false }
    else
      let cacheKey := stop ++ "-" ++ route
      match cacheLookup c cacheKey with
      | some cached =>
        if nowMs - cached.timestamp < CACHE_TTL_MS then
          if legacyUrl cached.payload.url then
            fetchStep (cacheErase c cacheKey) cacheKey stop route datum nowMs
              currentMinutes upstream
          else
            { status := 200, body := .payload cached.payload, cache := c, fetched := false }
        else
          fetchStep (cacheErase c cacheKey) cacheKey stop route datum nowMs
            currentMinutes upstream
      | none => fetchStep c cacheKey stop route datum nowMs currentMinutes upstream
  | _, _ =>
    { status := 400, body := .jsonError "Missing stop or route parameter",
      cache := c, fetched := false }

/-- `StopRoute` from the page types. -/
structure StopRoute where
  stopId : String
  route : String
deriving DecidableEq, Repr

/-- `Schedule` as consumed by the page (`types.ts`). -/
structure PageSchedule where
  time : String
  destination : Option String := none
  delay : Option Int := none
  realtime : Option Bool := none
deriving DecidableEq, Repr

/-- `BusStop`: one pinned journey group. -/
structure BusStop where
  id : String
  name : String
  stops : List StopRoute
  description : Option String := none
deriving DecidableEq, Repr

/-- `ScheduleResponse` as consumed by the page. -/
structure ScheduleResponse where
  stop : String
  route : String
  date : String
  schedules : List PageSchedule
  url : String
  note : Option String := none
deriving DecidableEq, Repr

/-- One element of the merged departure list, carrying the origin pair. -/
structure MergedDeparture where
  schedule : PageSchedule
  route : String
  stopId : String
deriving DecidableEq, Repr

/-- The schedule-state key `busStopId-stopId-route` used by the page. -/
def scheduleKey (busStopId : String) (sr : StopRoute) : String :=
  busStopId ++ "-" ++ sr.stopId ++ "-" ++ sr.route

/-- The flatten phase of `getMergedSchedules`: all departures of every
stop/route pair of the group, in pair order, tagged with their origin; keys
that are absent or failed (`null`) contribute nothing. The schedule state
after all fetches settled is the `schedules` map. -/
def mergedFlatten (busStop : BusStop)
    (schedules : String → Option ScheduleResponse) : List MergedDeparture :=
  busStop.stops.flatMap fun sr =>
    match schedules (scheduleKey busStop.id sr) with
    | some resp =>
      resp.schedules.map fun s => { schedule := s, route := sr.route, stopId := sr.stopId }
    | none => []

/-- Sign test of the page comparator `timeA - timeB`: strictly positive only
when both operands are finite with `timeB < timeA`, or when `timeA` is
positive infinity against a finite `timeB`; NaN never compares positive. -/
def jsCompPos : JsNum → JsNum → Bool
  | .finite a, .finite b => decide (b < a)
  | .posInf, .finite _ => true
  | _, _ => false

/-- The order used to model the page sort: `a` need not go after `b`. -/
def mergedLe (a b : MergedDeparture) : Bool :=
  !(jsCompPos (pageTimeToMinutes a.schedule.time) (pageTimeToMinutes b.schedule.time))

/-- `getMergedSchedules` from the page: flatten, stable-sort by the page
`timeToMinutes`, take the top 3. -/
def getMergedSchedules (busStop : BusStop)
    (schedules : String → Option ScheduleResponse) : List MergedDeparture :=
  (jsSort mergedLe (mergedFlatten busStop schedules)).take 3

/-- Both values are finite minutes and in order. -/
def finiteLe (x y : JsNum) : Prop :=
  ∃ a b, x = .finite a ∧ y = .finite b ∧ a ≤ b

/-- A schedule list is sorted ascending by wall-clock time. -/
def sortedByTime (l : List Schedule) : Prop :=
  l.Pairwise fun s t => finiteLe (timeToMinutes s.time) (timeToMinutes t.time)

/-- A merged list is sorted ascending by the page `timeToMinutes`. -/
def sortedByPageTime (l : List MergedDeparture) : Prop :=
  l.Pairwise fun s t =>
    finiteLe (pageTimeToMinutes s.schedule.time) (pageTimeToMinutes t.schedule.time)

/-- The documented invariant of a `ScheduleResolution` payload. -/
def payloadInv (p : ScheduleResponsePayload) : Prop :=
  p.schedules.length ≤ 3 ∧ sortedByTime p.schedules

/-- Every payload stored in the cache satisfies the payload invariant. -/
def CacheInv (c : Cache) : Prop := ∀ e ∈ c, payloadInv e.2.payload

theorem digitsToNat_append (l : List Char) (c : Char) :
    digitsToNat (l ++ [c]) = digitsToNat l * 10 + (c.toNat - 48) := by
  simp [digitsToNat, List.foldl_append]

theorem digitChar_toNat {d : Nat} (h : d < 10) : (digitChar d).toNat = 48 + d := by
  interval_cases d <;> decide

theorem digitChar_isDigit {d : Nat} (h : d < 10) : (digitChar d).isDigit = true := by
  interval_cases d <;> decide

theorem natDigitsRev_eq_digits : ∀ fuel n, n ≤ fuel → natDigitsRev fuel n = Nat.digits 10 n := by
  intro fuel
  induction fuel with
  | zero =>
    intro n hn
    have : n = 0 := Nat.le_zero.mp hn
    subst this
    simp [natDigitsRev]
  | succ fuel ih =>
    intro n hn
    by_cases h0 : n = 0
    · subst h0; simp [natDigitsRev]
    · have hpos : 0 < n := Nat.pos_of_ne_zero h0
      have hdiv : n / 10 ≤ fuel := by
        have := Nat.div_lt_self hpos (by norm_num : 1 < 10)
        omega
      rw [natDigitsRev, if_neg h0, ih _ hdiv, Nat.digits_def' (by norm_num : 1 < 10) hpos]

theorem digitsToNat_rev_map (ds : List Nat) (h : ∀ d ∈ ds, d < 10) :
    digitsToNat (ds.reverse.map digitChar) = Nat.ofDigits 10 ds := by
  induction ds with
  | nil => simp [digitsToNat, Nat.ofDigits_nil]
  | cons d ds ih =>
    have hd : d < 10 := h d (List.mem_cons_self d ds)
    have hds : ∀ x ∈ ds, x < 10 := fun x hx => h x (List.mem_cons_of_mem d hx)
    rw [List.reverse_cons, List.map_append, List.map_singleton, digitsToNat_append,
      ih hds, digitChar_toNat hd, Nat.ofDigits_cons]
    omega

theorem natToChars_ne_nil (n : Nat) : natToChars n ≠ [] := by
  by_cases h0 : n = 0
  · subst h0; simp [natToChars]
  · have : Nat.digits 10 n ≠ [] := Nat.digits_ne_nil_iff_ne_zero.mpr h0
    simp only [natToChars, if_neg h0, natDigitsRev_eq_digits n n le_rfl]
    intro hc
    rcases List.map_eq_nil_iff.mp hc with hrev
    exact this (List.reverse_eq_nil_iff.mp hrev)

theorem natToChars_all_digit (n : Nat) : (natToChars n).all Char.isDigit = true := by
  by_cases h0 : n = 0
  · subst h0; decide
  · simp only [natToChars, if_neg h0, natDigitsRev_eq_digits n n le_rfl, List.all_eq_true]
    intro c hc
    rcases List.mem_map.mp hc with ⟨d, hd, hcd⟩
    have : d < 10 :=
      Nat.digits_lt_base (by norm_num) (List.mem_reverse.mp hd)
    rw [← hcd]
    exact digitChar_isDigit this

theorem digitsToNat_natToChars (n : Nat) : digitsToNat (natToChars n) = n := by
  by_cases h0 : n = 0
  · subst h0; decide
  · rw [natToChars, if_neg h0, natDigitsRev_eq_digits n n le_rfl,
      digitsToNat_rev_map _ (fun d hd => Nat.digits_lt_base (by norm_num) hd),
      Nat.ofDigits_digits]

theorem digitsToNat_replicate_zero_append (k : Nat) (l : List Char) :
    digitsToNat (List.replicate k '0' ++ l) = digitsToNat l := by
  induction k with
  | zero => rfl
  | succ k ih =>
    have : List.replicate (k + 1) '0' ++ l = '0' :: (List.replicate k '0' ++ l) := by
      simp [List.replicate_succ]
    rw [this]
    show List.foldl _ (0 * 10 + ('0'.toNat - 48)) _ = _
    simpa [digitsToNat] using ih

theorem digitsToNat_padStart2 (l : List Char) :
    digitsToNat (padStart2 l) = digitsToNat l := by
  unfold padStart2
  split
  · rfl
  · exact digitsToNat_replicate_zero_append _ l

theorem padStart2_all_digit (l : List Char) (h : l.all Char.isDigit = true) :
    (padStart2 l).all Char.isDigit = true := by
  unfold padStart2
  split
  · exact h
  · rw [List.all_append, h, Bool.and_true, List.all_eq_true]
    intro c hc
    rw [List.eq_of_mem_replicate hc]
    decide

theorem padStart2_ne_nil (l : List Char) (h : l ≠ []) : padStart2 l ≠ [] := by
  unfold padStart2
  split
  · exact h
  · intro hc
    exact h (List.append_eq_nil.mp hc).2

theorem jsNumberChars_all_digit (l : List Char) (h : l.all Char.isDigit = true) :
    jsNumberChars l = .finite (digitsToNat l) := by
  unfold jsNumberChars
  by_cases h0 : l = []
  · subst h0; rfl
  · rw [if_neg h0, if_pos h]

theorem no_colon_of_all_digit (l : List Char) (h : l.all Char.isDigit = true) :
    ':' ∉ l := by
  intro hc
  have hdig := List.all_eq_true.mp h ':' hc
  exact absurd hdig (by decide)

theorem splitOnCharAux_no_sep (sep : Char) (l acc : List Char) (h : sep ∉ l) :
    splitOnCharAux sep l acc = [acc.reverse ++ l] := by
  induction l generalizing acc with
  | nil => simp [splitOnCharAux]
  | cons c cs ih =>
    have hcs : sep ∉ cs := fun hx => h (List.mem_cons_of_mem c hx)
    have hc : ¬(c = sep) := fun hx => h (hx ▸ List.mem_cons_self c cs)
    rw [splitOnCharAux, if_neg hc, ih _ hcs]
    simp

theorem splitOnCharAux_found (sep : Char) (a b acc : List Char) (ha : sep ∉ a) :
    splitOnCharAux sep (a ++ sep :: b) acc
      = (acc.reverse ++ a) :: splitOnCharAux sep b [] := by
  induction a generalizing acc with
  | nil => simp [splitOnCharAux]
  | cons c cs ih =>
    have hcs : sep ∉ cs := fun hx => ha (List.mem_cons_of_mem c hx)
    have hc : ¬(c = sep) := fun hx => ha (hx ▸ List.mem_cons_self c cs)
    rw [List.cons_append, splitOnCharAux, if_neg hc, ih _ hcs]
    simp

theorem splitOnChar_found (sep : Char) (a b : List Char) (ha : sep ∉ a) (hb : sep ∉ b) :
    splitOnChar sep (a ++ sep :: b) = [a, b] := by
  rw [splitOnChar, splitOnCharAux_found sep a b [] ha, splitOnCharAux_no_sep sep b [] hb]
  simp

theorem secondsToTime_toList (s : Nat) :
    (secondsToTime s).toList
      = padStart2 (natToChars (s / 3600)) ++ ':' :: padStart2 (natToChars (s % 3600 / 60)) := rfl

/-- Core round-trip fact: parsing the rendered `"HH:MM"` recovers exactly the
whole minutes. -/
theorem timeToMinutes_secondsToTime (s : Nat) :
    timeToMinutes (secondsToTime s) = .finite (s / 60) := by
  have hh := padStart2_all_digit _ (natToChars_all_digit (s / 3600))
  have hm := padStart2_all_digit _ (natToChars_all_digit (s % 3600 / 60))
  have hsplit := splitOnChar_found ':' (padStart2 (natToChars (s / 3600)))
    (padStart2 (natToChars (s % 3600 / 60))) (no_colon_of_all_digit _ hh)
    (no_colon_of_all_digit _ hm)
  unfold timeToMinutes
  rw [secondsToTime_toList, hsplit]
  rw [List.map_cons, List.map_cons, List.map_nil,
    jsNumberChars_all_digit _ hh, jsNumberChars_all_digit _ hm,
    digitsToNat_padStart2, digitsToNat_padStart2,
    digitsToNat_natToChars, digitsToNat_natToChars]
  simp only [List.getElem?_cons_zero, List.getElem?_cons_succ]
  have : ¬((some (JsNum.finite (s / 3600)) = some JsNum.nan)
      ∨ (some (JsNum.finite (s % 3600 / 60)) = some JsNum.nan)) := by
    intro h
    rcases h with h | h <;> simp at h
  rw [if_neg this]
  have harith : s / 3600 * 60 + s % 3600 / 60 = s / 60 := by omega
  simp [harith]

theorem perm_jsOrderedInsert (le : α → α → Bool) (a : α) (l : List α) :
    List.Perm (jsOrderedInsert le a l) (a :: l) := by
  induction l with
  | nil => rfl
  | cons b l ih =>
    rw [jsOrderedInsert]
    split
    · rfl
    · exact ((ih.cons b).trans (List.Perm.swap a b l))

theorem perm_jsSort (le : α → α → Bool) (l : List α) :
    List.Perm (jsSort le l) l := by
  induction l with
  | nil => rfl
  | cons a l ih =>
    exact (perm_jsOrderedInsert le a (jsSort le l)).trans (ih.cons a)

theorem mem_jsSort {le : α → α → Bool} {l : List α} {x : α} :
    x ∈ jsSort le l ↔ x ∈ l := (perm_jsSort le l).mem_iff

theorem pairwise_jsOrderedInsert (le : α → α → Bool) (a : α) (l : List α)
    (hl : l.Pairwise (fun x y => le x y = true))
    (htot : ∀ b ∈ l, le a b = true ∨ le b a = true)
    (htr : ∀ b ∈ l, ∀ c ∈ l, le a b = true → le b c = true → le a c = true) :
    (jsOrderedInsert le a l).Pairwise (fun x y => le x y = true) := by
  induction l with
  | nil => exact List.pairwise_singleton _ a
  | cons b l ih =>
    rw [jsOrderedInsert]
    rcases List.pairwise_cons.mp hl with ⟨hb, hl'⟩
    split
    case isTrue hab =>
      refine List.pairwise_cons.mpr ⟨?_, hl⟩
      intro y hy
      rcases List.mem_cons.mp hy with rfl | hyl
      · exact hab
      · exact htr b (List.mem_cons_self b l) y (List.mem_cons_of_mem b hyl) hab (hb y hyl)
    case isFalse hab =>
      refine List.pairwise_cons.mpr ⟨?_, ?_⟩
      · intro y hy
        have hy' := (perm_jsOrderedInsert le a l).mem_iff.mp hy
        rcases List.mem_cons.mp hy' with rfl | hyl
        · rcases htot b (List.mem_cons_self b l) with h | h
          · exact absurd h hab
          · exact h
        · exact hb y hyl
      · exact ih hl' (fun x hx => htot x (List.mem_cons_of_mem b hx))
          (fun x hx y hy => htr x (List.mem_cons_of_mem b hx) y (List.mem_cons_of_mem b hy))

theorem pairwise_jsSort (le : α → α → Bool) (l : List α)
    (htot : ∀ a ∈ l, ∀ b ∈ l, le a b = true ∨ le b a = true)
    (htr : ∀ a ∈ l, ∀ b ∈ l, ∀ c ∈ l, le a b = true → le b c = true → le a c = true) :
    (jsSort le l).Pairwise (fun x y => le x y = true) := by
  induction l with
  | nil => exact List.Pairwise.nil
  | cons a l ih =>
    rw [jsSort]
    have hmem : ∀ x ∈ jsSort le l, x ∈ a :: l := fun x hx =>
      List.mem_cons_of_mem a (mem_jsSort.mp hx)
    refine pairwise_jsOrderedInsert le a (jsSort le l) ?_ ?_ ?_
    · exact ih
        (fun x hx y hy => htot x (List.mem_cons_of_mem a hx) y (List.mem_cons_of_mem a hy))
        (fun x hx y hy z hz => htr x (List.mem_cons_of_mem a hx)
          y (List.mem_cons_of_mem a hy) z (List.mem_cons_of_mem a hz))
    · exact fun b hb => htot a (List.mem_cons_self a l) b (hmem b hb)
    · exact fun b hb c hc => htr a (List.mem_cons_self a l) b (hmem b hb) c (hmem c hc)

theorem pairwise_jsSort_arrivals (l : List BrezavtaArrival) :
    (jsSort arrivalLe l).Pairwise (fun a b => arrivalLe a b = true) := by
  refine pairwise_jsSort arrivalLe l ?_ ?_
  · intro a _ b _
    unfold arrivalLe
    rcases Nat.le_total (effectiveArrival a) (effectiveArrival b) with h | h
    · exact Or.inl (decide_eq_true h)
    · exact Or.inr (decide_eq_true h)
  · intro a _ b _ c _ hab hbc
    exact decide_eq_true (Nat.le_trans (of_decide_eq_true hab) (of_decide_eq_true hbc))

theorem cacheLookup_erase_self (c : Cache) (k : String) :
    cacheLookup (cacheErase c k) k = none := by
  induction c with
  | nil => rfl
  | cons e t ih =>
    rw [cacheErase]
    split
    · exact ih
    case isFalse he =>
      rw [cacheLookup, if_neg he]
      exact ih

theorem cacheLookup_append_right (c d : Cache) (k : String)
    (h : cacheLookup c k = none) : cacheLookup (c ++ d) k = cacheLookup d k := by
  induction c with
  | nil => rfl
  | cons e t ih =>
    rw [List.cons_append, cacheLookup]
    rw [cacheLookup] at h
    split
    case isTrue he => rw [if_pos he] at h; exact absurd h (by simp)
    case isFalse he => rw [if_neg he] at h; exact ih h

theorem cacheLookup_set_self (c : Cache) (k : String) (v : CacheEntry) :
    cacheLookup (cacheSet c k v) k = some v := by
  rw [cacheSet, cacheLookup_append_right _ _ _ (cacheLookup_erase_self c k),
    cacheLookup, if_pos rfl]

theorem mem_cacheErase {c : Cache} {k : String} {x : String × CacheEntry}
    (h : x ∈ cacheErase c k) : x ∈ c := by
  induction c with
  | nil => exact absurd h (List.not_mem_nil x)
  | cons e t ih =>
    rw [cacheErase] at h
    split at h
    · exact List.mem_cons_of_mem e (ih h)
    · rcases List.mem_cons.mp h with rfl | hx
      · exact List.mem_cons_self x t
      · exact List.mem_cons_of_mem e (ih hx)

theorem CacheInv_erase {c : Cache} (k : String) (h : CacheInv c) :
    CacheInv (cacheErase c k) :=
  fun e he => h e (mem_cacheErase he)

theorem CacheInv_set {c : Cache} {k : String} {v : CacheEntry} (h : CacheInv c)
    (hv : payloadInv v.payload) : CacheInv (cacheSet c k v) := by
  intro e he
  rcases List.mem_append.mp he with hl | hr
  · exact CacheInv_erase k h e hl
  · rcases List.mem_singleton.mp hr with rfl
    exact hv

theorem cacheLookup_payloadInv {c : Cache} {k : String} {e : CacheEntry}
    (h : CacheInv c) (hl : cacheLookup c k = some e) : payloadInv e.payload := by
  induction c with
  | nil => exact absurd hl (by rw [cacheLookup]; simp)
  | cons x t ih =>
    rw [cacheLookup] at hl
    split at hl
    · rcases Option.some.inj hl with rfl
      exact h x (List.mem_cons_self x t)
    · exact ih (fun y hy => h y (List.mem_cons_of_mem x hy)) hl

theorem pairwise_normalizeArrivals (routeId : String) (arrivals : List BrezavtaArrival) :
    (normalizeArrivals routeId arrivals).Pairwise (fun a b => arrivalLe a b = true) :=
  List.Pairwise.sublist (List.take_sublist 3 _) (pairwise_jsSort_arrivals _)

theorem length_normalizeArrivals (routeId : String) (arrivals : List BrezavtaArrival) :
    (normalizeArrivals routeId arrivals).length ≤ 3 :=
  List.length_take_le 3 _

theorem sortedByTime_map_normalize (routeId : String) (arrivals : List BrezavtaArrival) :
    sortedByTime ((normalizeArrivals routeId arrivals).map toSchedule) := by
  rw [sortedByTime, List.pairwise_map]
  refine (pairwise_normalizeArrivals routeId arrivals).imp ?_
  intro a b hab
  have ha : timeToMinutes (toSchedule a).time = .finite (effectiveArrival a / 60) :=
    timeToMinutes_secondsToTime (effectiveArrival a)
  have hb : timeToMinutes (toSchedule b).time = .finite (effectiveArrival b / 60) :=
    timeToMinutes_secondsToTime (effectiveArrival b)
  exact ⟨effectiveArrival a / 60, effectiveArrival b / 60, ha, hb,
    Nat.div_le_div_right (of_decide_eq_true hab)⟩

theorem payloadInv_computeResult (stopId routeId datum : String) (curMin : Nat)
    (arrivals : List BrezavtaArrival) :
    payloadInv (computeResult stopId routeId datum curMin arrivals) := by
  have hsort := sortedByTime_map_normalize routeId arrivals
  have hlen : ((normalizeArrivals routeId arrivals).map toSchedule).length ≤ 3 := by
    rw [List.length_map]
    exact length_normalizeArrivals routeId arrivals
  set scheds := (normalizeArrivals routeId arrivals).map toSchedule with hscheds
  set futs := scheds.filter (fun s => jsGtNow (timeToMinutes s.time) curMin) with hfuts
  have hsched : (computeResult stopId routeId datum curMin arrivals).schedules
      = if futs.isEmpty then scheds.take 3 else futs := rfl
  constructor
  · rw [hsched]
    split
    · exact List.length_take_le 3 _
    · exact le_trans (List.length_filter_le _ _) hlen
  · rw [hsched]
    split
    · exact List.Pairwise.sublist (List.take_sublist 3 _) hsort
    · exact List.Pairwise.filter _ hsort

theorem fetchStep_payload (c : Cache) (cacheKey stopId routeId datum : String)
    (nowMs curMin : Nat) (upstream : Except Unit (List BrezavtaArrival))
    (hc : CacheInv c) :
    ∃ p, (fetchStep c cacheKey stopId routeId datum nowMs curMin upstream).body = .payload p ∧
      payloadInv p ∧
      CacheInv (fetchStep c cacheKey stopId routeId datum nowMs curMin upstream).cache := by
  cases upstream with
  | ok arrivals =>
    exact ⟨computeResult stopId routeId datum curMin arrivals, rfl,
      payloadInv_computeResult stopId routeId datum curMin arrivals,
      CacheInv_set hc (payloadInv_computeResult stopId routeId datum curMin arrivals)⟩
  | error e =>
    exact ⟨_, rfl, ⟨by simp, List.Pairwise.nil⟩, CacheInv_erase cacheKey hc⟩

/-- C1: for every valid `(stopId, route)` input, the resolve operation (the
`GET` handler) returns a payload whose `schedules` list has at most 3 entries
and is sorted ascending by wall-clock time, and the cache invariant is
preserved across the call. -/
theorem C1_resolve_returns_sorted_top3 (c : Cache) (stop route : String)
    (datumParam : Option String) (today : String) (nowMs currentMinutes : Nat)
    (upstream : Except Unit (List BrezavtaArrival))
    (hs : stop ≠ "") (hr : route ≠ "") (hc : CacheInv c) :
    ∃ p, (GET c (some stop) (some route) datumParam today nowMs currentMinutes upstream).body
        = .payload p ∧
      p.schedules.length ≤ 3 ∧ sortedByTime p.schedules ∧
      CacheInv (GET c (some stop) (some route) datumParam today nowMs
        currentMinutes upstream).cache := by
  have hvalid : ¬(stop = "" ∨ route = "") := fun h => h.elim hs hr
  simp only [GET]
  rw [if_neg hvalid]
  cases hlook : cacheLookup c (stop ++ "-" ++ route) with
  | none =>
    dsimp only
    rcases fetchStep_payload c (stop ++ "-" ++ route) stop route _ nowMs currentMinutes
      upstream hc with ⟨p, hbody, hinv, hcache⟩
    exact ⟨p, hbody, hinv.1, hinv.2, hcache⟩
  | some cached =>
    dsimp only
    by_cases httl : nowMs - cached.timestamp < CACHE_TTL_MS
    · rw [if_pos httl]
      by_cases hleg : legacyUrl cached.payload.url = true
      · rw [if_pos hleg]
        rcases fetchStep_payload (cacheErase c (stop ++ "-" ++ route))
          (stop ++ "-" ++ route) stop route _ nowMs currentMinutes upstream
          (CacheInv_erase _ hc) with ⟨p, hbody, hinv, hcache⟩
        exact ⟨p, hbody, hinv.1, hinv.2, hcache⟩
      · rw [if_neg hleg]
        have hpinv := cacheLookup_payloadInv hc hlook
        exact ⟨cached.payload, rfl, hpinv.1, hpinv.2, hc⟩
    · rw [if_neg httl]
      rcases fetchStep_payload (cacheErase c (stop ++ "-" ++ route))
        (stop ++ "-" ++ route) stop route _ nowMs currentMinutes upstream
        (CacheInv_erase _ hc) with ⟨p, hbody, hinv, hcache⟩
      exact ⟨p, hbody, hinv.1, hinv.2, hcache⟩

/-- Witness for C1 at a concrete valid request against an empty cache. -/
theorem C1_witness :
    ∃ p, (GET [] (some "255") (some "G6") none "2025-01-01" 0 600 (.ok [])).body
        = .payload p ∧
      p.schedules.length ≤ 3 ∧ sortedByTime p.schedules ∧
      CacheInv (GET [] (some "255") (some "G6") none "2025-01-01" 0 600 (.ok [])).cache :=
  C1_resolve_returns_sorted_top3 [] "255" "G6" none "2025-01-01" 0 600 (.ok [])
    (by decide) (by decide) (fun e he => absurd he (List.not_mem_nil e))

/-- C2: when the call goes upstream (no usable cache entry) and the upstream
request fails, the handler still returns a payload — with an empty schedule
list, the best-effort website URL built from the stop id, and the degradation
note — and the cache entry for the key is evicted, so the next call retries
the live source. -/
theorem C2_upstream_failure_degrades (c : Cache) (stop route : String)
    (datumParam : Option String) (today : String) (nowMs currentMinutes : Nat)
    (hs : stop ≠ "") (hr : route ≠ "")
    (hnc : ∀ e, cacheLookup c (stop ++ "-" ++ route) = some e →
      CACHE_TTL_MS ≤ nowMs - e.timestamp ∨ legacyUrl e.payload.url = true) :
    (GET c (some stop) (some route) datumParam today nowMs currentMinutes
        (.error ())).status = 500 ∧
    (GET c (some stop) (some route) datumParam today nowMs currentMinutes
        (.error ())).fetched = true ∧
    (∃ p, (GET c (some stop) (some route) datumParam today nowMs currentMinutes
        (.error ())).body = .payload p ∧
      p.schedules = [] ∧
      p.url = WEBSITE_BASE_URL ++ "/stop/MARPROM:" ++ stop ∧
      p.note = some errorNote) ∧
    cacheLookup (GET c (some stop) (some route) datumParam today nowMs currentMinutes
        (.error ())).cache (stop ++ "-" ++ route) = none := by
  have hvalid : ¬(stop = "" ∨ route = "") := fun h => h.elim hs hr
  simp only [GET]
  rw [if_neg hvalid]
  cases hlook : cacheLookup c (stop ++ "-" ++ route) with
  | none =>
    dsimp only
    exact ⟨rfl, rfl, ⟨_, rfl, rfl, rfl, rfl⟩, cacheLookup_erase_self c _⟩
  | some cached =>
    dsimp only
    rcases hnc cached hlook with hstale | hleg
    · rw [if_neg (by omega)]
      refine ⟨rfl, rfl, ⟨_, rfl, rfl, rfl, rfl⟩, ?_⟩
      show cacheLookup (cacheErase (cacheErase c _) _) _ = none
      exact cacheLookup_erase_self _ _
    · by_cases httl : nowMs - cached.timestamp < CACHE_TTL_MS
      · rw [if_pos httl, if_pos hleg]
        refine ⟨rfl, rfl, ⟨_, rfl, rfl, rfl, rfl⟩, ?_⟩
        show cacheLookup (cacheErase (cacheErase c _) _) _ = none
        exact cacheLookup_erase_self _ _
      · rw [if_neg httl]
        refine ⟨rfl, rfl, ⟨_, rfl, rfl, rfl, rfl⟩, ?_⟩
        show cacheLookup (cacheErase (cacheErase c _) _) _ = none
        exact cacheLookup_erase_self _ _

/-- Witness for C2 at a concrete failing request against an empty cache. -/
theorem C2_witness :
    (GET [] (some "255") (some "G6") none "2025-01-01" 0 600 (.error ())).status = 500 ∧
    (GET [] (some "255") (some "G6") none "2025-01-01" 0 600 (.error ())).fetched = true ∧
    (∃ p, (GET [] (some "255") (some "G6") none "2025-01-01" 0 600 (.error ())).body
        = .payload p ∧
      p.schedules = [] ∧
      p.url = WEBSITE_BASE_URL ++ "/stop/MARPROM:" ++ "255" ∧
      p.note = some errorNote) ∧
    cacheLookup (GET [] (some "255") (some "G6") none "2025-01-01" 0 600
      (.error ())).cache ("255" ++ "-" ++ "G6") = none :=
  C2_upstream_failure_degrades [] "255" "G6" none "2025-01-01" 0 600
    (by decide) (by decide)
    (fun e he => absurd he (by rw [cacheLookup]; simp))

theorem GET_fetch_ok_result (c : Cache) (stop route : String)
    (datumParam : Option String) (today : String) (now1 cur1 : Nat)
    (arrivals : List BrezavtaArrival) (hs : stop ≠ "") (hr : route ≠ "") :
    (GET c (some stop) (some route) datumParam today now1 cur1 (.ok arrivals)).fetched = true →
    (GET c (some stop) (some route) datumParam today now1 cur1 (.ok arrivals)).body
        = .payload (computeResult stop route (resolveDatum datumParam today) cur1 arrivals) ∧
    cacheLookup (GET c (some stop) (some route) datumParam today now1 cur1
        (.ok arrivals)).cache (stop ++ "-" ++ route)
      = some
        { timestamp := now1,
          payload := computeResult stop route (resolveDatum datumParam today) cur1 arrivals } := by
  have hvalid : ¬(stop = "" ∨ route = "") := fun h => h.elim hs hr
  simp only [GET]
  rw [if_neg hvalid]
  cases hlook : cacheLookup c (stop ++ "-" ++ route) with
  | none =>
    dsimp only
    intro _
    exact ⟨rfl, cacheLookup_set_self c _ _⟩
  | some cached =>
    dsimp only
    by_cases httl : now1 - cached.timestamp < CACHE_TTL_MS
    · rw [if_pos httl]
      by_cases hleg : legacyUrl cached.payload.url = true
      · rw [if_pos hleg]
        intro _
        exact ⟨rfl, cacheLookup_set_self _ _ _⟩
      · rw [if_neg hleg]
        intro hf
        exact absurd hf (by simp)
    · rw [if_neg httl]
      intro _
      exact ⟨rfl, cacheLookup_set_self _ _ _⟩

theorem GET_cache_hit (c : Cache) (stop route : String) (datumParam : Option String)
    (today : String) (nowMs currentMinutes : Nat)
    (upstream : Except Unit (List BrezavtaArrival)) (e : CacheEntry)
    (hs : stop ≠ "") (hr : route ≠ "")
    (hlook : cacheLookup c (stop ++ "-" ++ route) = some e)
    (httl : nowMs - e.timestamp < CACHE_TTL_MS)
    (hleg : legacyUrl e.payload.url = false) :
    GET c (some stop) (some route) datumParam today nowMs currentMinutes upstream
      = { status := 200, body := .payload e.payload, cache := c, fetched := false } := by
  have hvalid : ¬(stop = "" ∨ route = "") := fun h => h.elim hs hr
  simp only [GET]
  rw [if_neg hvalid, hlook]
  dsimp only
  rw [if_pos httl, if_neg (by rw [hleg]; exact Bool.false_ne_true)]

/-- C3: a second call with the same `(stopId, route)` within the 60-second
TTL of a first call that actually fetched (and whose payload URL has the
current shape) is served from the cache without a new upstream fetch and
returns the bit-identical payload, leaving the cache unchanged. -/
theorem C3_second_call_served_from_cache (c : Cache) (stop route : String)
    (datumParam : Option String) (today : String) (now1 cur1 : Nat)
    (arrivals : List BrezavtaArrival) (datumParam2 : Option String) (today2 : String)
    (now2 cur2 : Nat) (upstream2 : Except Unit (List BrezavtaArrival))
    (hs : stop ≠ "") (hr : route ≠ "")
    (hf : (GET c (some stop) (some route) datumParam today now1 cur1
      (.ok arrivals)).fetched = true)
    (hleg : legacyUrl (computeResult stop route (resolveDatum datumParam today)
      cur1 arrivals).url = false)
    (httl : now2 - now1 < CACHE_TTL_MS) :
    GET (GET c (some stop) (some route) datumParam today now1 cur1 (.ok arrivals)).cache
        (some stop) (some route) datumParam2 today2 now2 cur2 upstream2
      = { status := 200,
          body := (GET c (some stop) (some route) datumParam today now1 cur1
            (.ok arrivals)).body,
          cache := (GET c (some stop) (some route) datumParam today now1 cur1
            (.ok arrivals)).cache,
          fetched := false } := by
  rcases GET_fetch_ok_result c stop route datumParam today now1 cur1 arrivals hs hr hf
    with ⟨hbody, hlook⟩
  rw [hbody]
  exact GET_cache_hit _ stop route datumParam2 today2 now2 cur2 upstream2 _ hs hr
    hlook httl hleg

/-- Witness for C3: a concrete fetch followed by a cache-served repeat 1
second later. -/
theorem C3_witness :
    GET (GET [] (some "255") (some "G6") none "2025-01-01" 0 600 (.ok [])).cache
        (some "255") (some "G6") none "2025-01-01" 1000 601 (.error ())
      = { status := 200,
          body := (GET [] (some "255") (some "G6") none "2025-01-01" 0 600 (.ok [])).body,
          cache := (GET [] (some "255") (some "G6") none "2025-01-01" 0 600 (.ok [])).cache,
          fetched := false } :=
  C3_second_call_served_from_cache [] "255" "G6" none "2025-01-01" 0 600 [] none
    "2025-01-01" 1000 601 (.error ()) (by decide) (by decide) (by decide) (by decide)
    (by decide)

/-- C4: a cache entry whose payload URL matches the known-legacy pattern is
never served even within the TTL: the call behaves exactly as if the entry
were absent (in particular it goes upstream), so the legacy entry is evicted
and replaced or deleted by the fetch outcome. -/
theorem C4_legacy_entry_never_served (c : Cache) (stop route : String)
    (datumParam : Option String) (today : String) (nowMs currentMinutes : Nat)
    (upstream : Except Unit (List BrezavtaArrival)) (e : CacheEntry)
    (hs : stop ≠ "") (hr : route ≠ "")
    (hlook : cacheLookup c (stop ++ "-" ++ route) = some e)
    (hleg : legacyUrl e.payload.url = true)
    (httl : nowMs - e.timestamp < CACHE_TTL_MS) :
    GET c (some stop) (some route) datumParam today nowMs currentMinutes upstream
      = GET (cacheErase c (stop ++ "-" ++ route)) (some stop) (some route) datumParam
          today nowMs currentMinutes upstream ∧
    (GET c (some stop) (some route) datumParam today nowMs currentMinutes
      upstream).fetched = true := by
  have hvalid : ¬(stop = "" ∨ route = "") := fun h => h.elim hs hr
  have h1 : GET c (some stop) (some route) datumParam today nowMs currentMinutes upstream
      = fetchStep (cacheErase c (stop ++ "-" ++ route)) (stop ++ "-" ++ route) stop route
          (resolveDatum datumParam today) nowMs currentMinutes upstream := by
    simp only [GET]
    rw [if_neg hvalid, hlook]
    dsimp only
    rw [if_pos httl, if_pos hleg]
  have h2 : GET (cacheErase c (stop ++ "-" ++ route)) (some stop) (some route) datumParam
        today nowMs currentMinutes upstream
      = fetchStep (cacheErase c (stop ++ "-" ++ route)) (stop ++ "-" ++ route) stop route
          (resolveDatum datumParam today) nowMs currentMinutes upstream := by
    simp only [GET]
    rw [if_neg hvalid, cacheLookup_erase_self]
  refine ⟨h1.trans h2.symm, ?_⟩
  rw [h1]
  cases upstream <;> rfl

/-- A concrete cache entry whose payload URL has the decommissioned shape. -/
def c4entry : CacheEntry :=
  { timestamp := 0
    payload :=
      { stop := "255"
        route := "G6"
        date := "2025-01-01"
        schedules := []
        url := "https://api.beta.brezavta.si/stops/MARPROM:255/arrivals" } }

/-- Witness for C4 on a concrete cache holding a fresh legacy-URL entry. -/
theorem C4_witness :
    GET [("255-G6", c4entry)] (some "255") (some "G6") none "2025-01-01" 1000 600 (.ok [])
      = GET (cacheErase [("255-G6", c4entry)] ("255" ++ "-" ++ "G6"))
          (some "255") (some "G6") none "2025-01-01" 1000 600 (.ok []) ∧
    (GET [("255-G6", c4entry)] (some "255") (some "G6") none "2025-01-01" 1000 600
      (.ok [])).fetched = true :=
  C4_legacy_entry_never_served [("255-G6", c4entry)] "255" "G6" none "2025-01-01" 1000 600
    (.ok []) c4entry (by decide) (by decide) (by decide) (by decide) (by decide)

theorem GET_no_usable_cache (c : Cache) (stop route : String) (datumParam : Option String)
    (today : String) (nowMs curMin : Nat) (upstream : Except Unit (List BrezavtaArrival))
    (hs : stop ≠ "") (hr : route ≠ "")
    (hnc : ∀ e, cacheLookup c (stop ++ "-" ++ route) = some e →
      CACHE_TTL_MS ≤ nowMs - e.timestamp ∨ legacyUrl e.payload.url = true) :
    ∃ c', GET c (some stop) (some route) datumParam today nowMs curMin upstream
      = fetchStep c' (stop ++ "-" ++ route) stop route (resolveDatum datumParam today)
          nowMs curMin upstream := by
  have hvalid : ¬(stop = "" ∨ route = "") := fun h => h.elim hs hr
  simp only [GET]
  rw [if_neg hvalid]
  cases hlook : cacheLookup c (stop ++ "-" ++ route) with
  | none =>
    dsimp only
    exact ⟨c, rfl⟩
  | some cached =>
    dsimp only
    rcases hnc cached hlook with hstale | hleg
    · rw [if_neg (by omega)]
      exact ⟨cacheErase c (stop ++ "-" ++ route), rfl⟩
    · by_cases httl : nowMs - cached.timestamp < CACHE_TTL_MS
      · rw [if_pos httl, if_pos hleg]
        exact ⟨cacheErase c (stop ++ "-" ++ route), rfl⟩
      · rw [if_neg httl]
        exact ⟨cacheErase c (stop ++ "-" ++ route), rfl⟩

theorem computeResult_rollover (stopId routeId datum : String) (curMin : Nat)
    (arrivals : List BrezavtaArrival)
    (hne : (normalizeArrivals routeId arrivals).map toSchedule ≠ [])
    (hpast : ∀ s ∈ (normalizeArrivals routeId arrivals).map toSchedule,
      jsGtNow (timeToMinutes s.time) curMin = false) :
    (computeResult stopId routeId datum curMin arrivals).schedules
        = ((normalizeArrivals routeId arrivals).map toSchedule).take 3 ∧
    (computeResult stopId routeId datum curMin arrivals).note = some noMoreBusesNote := by
  set scheds := (normalizeArrivals routeId arrivals).map toSchedule with hscheds
  have hfe : scheds.filter (fun s => jsGtNow (timeToMinutes s.time) curMin) = [] :=
    List.filter_eq_nil_iff.mpr (fun s hsm => by rw [hpast s hsm]; simp)
  have hsched : (computeResult stopId routeId datum curMin arrivals).schedules
      = if (scheds.filter (fun s => jsGtNow (timeToMinutes s.time) curMin)).isEmpty
        then scheds.take 3
        else scheds.filter (fun s => jsGtNow (timeToMinutes s.time) curMin) := rfl
  have hnote : (computeResult stopId routeId datum curMin arrivals).note
      = if (scheds.filter (fun s => jsGtNow (timeToMinutes s.time) curMin)).isEmpty
          && !scheds.isEmpty
        then some noMoreBusesNote
        else none := rfl
  have hsne : scheds.isEmpty = false := by
    simp [List.isEmpty_iff, hne]
  rw [hsched, hnote, hfe]
  simp [hsne]

/-- C5 counterexample: current time 23:50 (1430 minutes), upstream serves
only 07:30 and 08:00; the handler returns those two times, but without any
day-rollover marker and with the note "No more buses today - showing next
available departures", which does not mention tomorrow — so the claimed
marker and note text do not hold on this input. -/
theorem C5_counterexample :
    (GET [] (some "359") (some "G6") none "2025-01-01" 0 1430
        (.ok [ { route_short_name := "G6", trip_headsign := "", realtime := false,
                 passed := false, arrival_scheduled := 28800, arrival_realtime := 0 },
               { route_short_name := "G6", trip_headsign := "", realtime := false,
                 passed := false, arrival_scheduled := 27000, arrival_realtime := 0 } ])).body
      = .payload
          { stop := "359"
            route := "G6"
            date := "2025-01-01"
            schedules := [{ time := "07:30" }, { time := "08:00" }]
            url := "https://brezavta.si/stop/MARPROM:359"
            note := some noMoreBusesNote } ∧
    stringIncludes noMoreBusesNote "tomorrow" = false ∧
    stringIncludes "07:30" "+1" = false ∧
    stringIncludes "08:00" "+1" = false := by
  decide

/-- C5 amended: when every normalized schedule is at or before the current
time and the normalized list is non-empty, a fetching call returns those
earliest times (the pre-filter top 3, unchanged and untagged), never an empty
list, with the note "No more buses today - showing next available
departures". -/
theorem C5_rollover_shows_earliest (c : Cache) (stop route : String)
    (datumParam : Option String) (today : String) (nowMs curMin : Nat)
    (arrivals : List BrezavtaArrival) (hs : stop ≠ "") (hr : route ≠ "")
    (hnc : ∀ e, cacheLookup c (stop ++ "-" ++ route) = some e →
      CACHE_TTL_MS ≤ nowMs - e.timestamp ∨ legacyUrl e.payload.url = true)
    (hne : (normalizeArrivals route arrivals).map toSchedule ≠ [])
    (hpast : ∀ s ∈ (normalizeArrivals route arrivals).map toSchedule,
      jsGtNow (timeToMinutes s.time) curMin = false) :
    ∃ p, (GET c (some stop) (some route) datumParam today nowMs curMin
        (.ok arrivals)).body = .payload p ∧
      p.schedules = ((normalizeArrivals route arrivals).map toSchedule).take 3 ∧
      p.schedules ≠ [] ∧
      p.note = some noMoreBusesNote := by
  rcases GET_no_usable_cache c stop route datumParam today nowMs curMin (.ok arrivals)
    hs hr hnc with ⟨c', hG⟩
  rw [hG]
  rcases computeResult_rollover stop route (resolveDatum datumParam today) curMin arrivals
    hne hpast with ⟨hsched, hnote⟩
  refine ⟨computeResult stop route (resolveDatum datumParam today) curMin arrivals, rfl,
    hsched, ?_, hnote⟩
  rw [hsched, Ne, List.take_eq_nil_iff]
  simp [hne]

/-- Witness for the amended C5 at the concrete 23:50 scenario. -/
theorem C5_witness :
    ∃ p, (GET [] (some "359") (some "G6") none "2025-01-01" 0 1430
        (.ok [ { route_short_name := "G6", trip_headsign := "", realtime := false,
                 passed := false, arrival_scheduled := 28800, arrival_realtime := 0 },
               { route_short_name := "G6", trip_headsign := "", realtime := false,
                 passed := false, arrival_scheduled := 27000, arrival_realtime := 0 } ])).body
        = .payload p ∧
      p.schedules = ((normalizeArrivals "G6"
          [ { route_short_name := "G6", trip_headsign := "", realtime := false,
              passed := false, arrival_scheduled := 28800, arrival_realtime := 0 },
            { route_short_name := "G6", trip_headsign := "", realtime := false,
              passed := false, arrival_scheduled := 27000, arrival_realtime := 0 } ]).map
          toSchedule).take 3 ∧
      p.schedules ≠ [] ∧
      p.note = some noMoreBusesNote :=
  C5_rollover_shows_earliest [] "359" "G6" none "2025-01-01" 0 1430 _
    (by decide) (by decide)
    (fun e he => absurd he (by rw [cacheLookup]; simp))
    (by decide) (by decide)

/-- C8: on a call that goes upstream (no usable cache entry), every schedule
time of a response that does not carry the no-more-buses note is strictly in
the future at the current-minutes reading taken during that resolution. -/
theorem C8_future_filter (c : Cache) (stop route : String) (datumParam : Option String)
    (today : String) (nowMs curMin : Nat) (upstream : Except Unit (List BrezavtaArrival))
    (p : ScheduleResponsePayload) (hs : stop ≠ "") (hr : route ≠ "")
    (hnc : ∀ e, cacheLookup c (stop ++ "-" ++ route) = some e →
      CACHE_TTL_MS ≤ nowMs - e.timestamp ∨ legacyUrl e.payload.url = true)
    (hp : (GET c (some stop) (some route) datumParam today nowMs curMin upstream).body
      = .payload p)
    (hnote : p.note ≠ some noMoreBusesNote) :
    ∀ s ∈ p.schedules, jsGtNow (timeToMinutes s.time) curMin = true := by
  rcases GET_no_usable_cache c stop route datumParam today nowMs curMin upstream
    hs hr hnc with ⟨c', hG⟩
  rw [hG] at hp
  cases upstream with
  | error e =>
    have hpe : p
        = { stop := stop
            route := route
            date := resolveDatum datumParam today
            schedules := []
            url := WEBSITE_BASE_URL ++ "/stop/MARPROM:" ++ stop
            note := some errorNote } := by
      have := GetBody.payload.inj hp
      exact this.symm
    rw [hpe]
    intro s hsm
    exact absurd hsm (List.not_mem_nil s)
  | ok arrivals =>
    have hpe : p = computeResult stop route (resolveDatum datumParam today) curMin arrivals :=
      (GetBody.payload.inj hp).symm
    subst hpe
    set scheds := (normalizeArrivals route arrivals).map toSchedule with hscheds
    set futs := scheds.filter (fun s => jsGtNow (timeToMinutes s.time) curMin) with hfuts
    have hsched : (computeResult stop route (resolveDatum datumParam today) curMin
        arrivals).schedules = if futs.isEmpty then scheds.take 3 else futs := rfl
    have hnotedef : (computeResult stop route (resolveDatum datumParam today) curMin
        arrivals).note
        = if futs.isEmpty && !scheds.isEmpty then some noMoreBusesNote else none := rfl
    by_cases hfe : futs.isEmpty
    · by_cases hse : scheds.isEmpty
      · rw [hsched, if_pos hfe]
        have : scheds = [] := List.isEmpty_iff.mp hse
        rw [this]
        intro s hsm
        exact absurd hsm (List.not_mem_nil s)
      · exfalso
        apply hnote
        have hse2 : scheds.isEmpty = false := by simpa using hse
        rw [hnotedef, hfe, hse2]
        simp
    · rw [hsched, if_neg hfe, hfuts]
      intro s hsm
      exact (List.mem_filter.mp hsm).2

/-- A concrete payload with one future departure, for the C8 witness. -/
def c8payload : ScheduleResponsePayload :=
  { stop := "255"
    route := "G6"
    date := "2025-01-01"
    schedules := [{ time := "11:06" }]
    url := "https://brezavta.si/stop/MARPROM:255"
    note := none }

/-- A concrete upstream arrival at 11:06, for the C8 witness. -/
def c8arrival : BrezavtaArrival :=
  { route_short_name := "G6"
    trip_headsign := ""
    realtime := false
    passed := false
    arrival_scheduled := 40000
    arrival_realtime := 0 }

/-- Witness for C8: one future arrival at 11:06 against current time 10:00. -/
theorem C8_witness :
    jsGtNow (timeToMinutes ({ time := "11:06" } : Schedule).time) 600 = true :=
  C8_future_filter [] "255" "G6" none "2025-01-01" 0 600 (.ok [c8arrival]) c8payload
    (by decide) (by decide)
    (fun e he => absurd he (by rw [cacheLookup]; simp))
    (by decide) (by decide) { time := "11:06" } (by decide)

theorem isFinite_exists {x : JsNum} (h : x.isFinite = true) : ∃ a, x = .finite a := by
  cases x with
  | finite a => exact ⟨a, rfl⟩
  | posInf => exact absurd h (by decide)
  | nan => exact absurd h (by decide)

theorem mergedLe_finite_iff {d e : MergedDeparture} {a b : Nat}
    (hd : pageTimeToMinutes d.schedule.time = .finite a)
    (he : pageTimeToMinutes e.schedule.time = .finite b) :
    mergedLe d e = true ↔ a ≤ b := by
  unfold mergedLe
  rw [hd, he]
  simp [jsCompPos, Nat.not_lt]

/-- The journey group of the merge-and-sort scenario: pair A is (255, G6),
pair B is (359, P18). -/
def c6group : BusStop :=
  { id := "j", name := "J", stops := [⟨"255", "G6"⟩, ⟨"359", "P18"⟩] }

/-- Pair A resolves to [08:10]. -/
def c6respA : ScheduleResponse :=
  { stop := "255", route := "G6", date := "d", schedules := [{ time := "08:10" }], url := "u" }

/-- Pair B resolves to [08:05, 08:20]. -/
def c6respB : ScheduleResponse :=
  { stop := "359", route := "P18", date := "d",
    schedules := [{ time := "08:05" }, { time := "08:20" }], url := "u" }

/-- The settled schedule state of the merge-and-sort scenario. -/
def c6map : String → Option ScheduleResponse := fun k =>
  if k = "j-255-G6" then some c6respA
  else if k = "j-359-P18" then some c6respB
  else none

/-- C6: the group aggregation flattens the schedules of all stop/route pairs
tagged with their origin, stable-sorts the combined list ascending by the
page `timeToMinutes` (stated for well-formed times), and truncates to 3; in
particular pair A = [08:10] and pair B = [08:05, 08:20] merge to
[08:05(B), 08:10(A), 08:20(B)]. -/
theorem C6_group_merge_sort :
    (∀ (bs : BusStop) (m : String → Option ScheduleResponse),
      (∀ d ∈ mergedFlatten bs m, (pageTimeToMinutes d.schedule.time).isFinite = true) →
      ∃ l, List.Perm l (mergedFlatten bs m) ∧ sortedByPageTime l ∧
        getMergedSchedules bs m = l.take 3 ∧ (getMergedSchedules bs m).length ≤ 3) ∧
    getMergedSchedules c6group c6map
      = [ { schedule := { time := "08:05" }, route := "P18", stopId := "359" },
          { schedule := { time := "08:10" }, route := "G6", stopId := "255" },
          { schedule := { time := "08:20" }, route := "P18", stopId := "359" } ] := by
  constructor
  · intro bs m hwf
    have hfin : ∀ d ∈ mergedFlatten bs m, ∃ a, pageTimeToMinutes d.schedule.time = .finite a :=
      fun d hd => isFinite_exists (hwf d hd)
    have hpw : (jsSort mergedLe (mergedFlatten bs m)).Pairwise
        (fun x y => mergedLe x y = true) := by
      refine pairwise_jsSort mergedLe (mergedFlatten bs m) ?_ ?_
      · intro d hd e he
        rcases hfin d hd with ⟨a, ha⟩
        rcases hfin e he with ⟨b, hb⟩
        rcases Nat.le_total a b with h | h
        · exact Or.inl ((mergedLe_finite_iff ha hb).mpr h)
        · exact Or.inr ((mergedLe_finite_iff hb ha).mpr h)
      · intro d hd e he f hf hde hef
        rcases hfin d hd with ⟨a, ha⟩
        rcases hfin e he with ⟨b, hb⟩
        rcases hfin f hf with ⟨c, hc⟩
        exact (mergedLe_finite_iff ha hc).mpr
          (Nat.le_trans ((mergedLe_finite_iff ha hb).mp hde)
            ((mergedLe_finite_iff hb hc).mp hef))
    refine ⟨jsSort mergedLe (mergedFlatten bs m), perm_jsSort _ _, ?_, rfl,
      List.length_take_le 3 _⟩
    refine hpw.imp_of_mem ?_
    intro d e hd he hde
    rcases hfin d (mem_jsSort.mp hd) with ⟨a, ha⟩
    rcases hfin e (mem_jsSort.mp he) with ⟨b, hb⟩
    exact ⟨a, b, ha, hb, (mergedLe_finite_iff ha hb).mp hde⟩
  · decide

/-- Witness for C6 at the merge-and-sort scenario group. -/
theorem C6_witness :
    ∃ l, List.Perm l (mergedFlatten c6group c6map) ∧ sortedByPageTime l ∧
      getMergedSchedules c6group c6map = l.take 3 ∧
      (getMergedSchedules c6group c6map).length ≤ 3 :=
  C6_group_merge_sort.1 c6group c6map (by decide)

/-- C7: in a two-pair group where one pair settled with a single departure
and the other pair failed (its entry is absent/null), the merge yields
exactly the successful pair's departure — a valid list, not an aggregate
failure. -/
theorem C7_partial_failure (sA sB : StopRoute) (bid nm : String) (dsc : Option String)
    (m : String → Option ScheduleResponse) (respA : ScheduleResponse) (s : PageSchedule)
    (hA : m (scheduleKey bid sA) = some respA)
    (hB : m (scheduleKey bid sB) = none)
    (hone : respA.schedules = [s]) :
    getMergedSchedules { id := bid, name := nm, stops := [sA, sB], description := dsc } m
      = [{ schedule := s, route := sA.route, stopId := sA.stopId }] := by
  unfold getMergedSchedules mergedFlatten
  simp only [List.flatMap_cons, List.flatMap_nil, hA, hB, hone]
  rfl

/-- The settled schedule state of the partial-failure scenario: pair A
succeeded with [08:00], pair B has no response. -/
def c7map : String → Option ScheduleResponse := fun k =>
  if k = "j-255-G6"
  then some { stop := "255", route := "G6", date := "d",
              schedules := [{ time := "08:00" }], url := "u" }
  else none

/-- The two-pair journey group of the partial-failure scenario. -/
def c7group : BusStop :=
  { id := "j", name := "J", stops := [⟨"255", "G6"⟩, ⟨"359", "P18"⟩], description := none }

/-- Witness for C7 at the concrete partial-failure scenario. -/
theorem C7_witness :
    getMergedSchedules c7group c7map
      = [{ schedule := { time := "08:00" }, route := "G6", stopId := "255" }] :=
  C7_partial_failure ⟨"255", "G6"⟩ ⟨"359", "P18"⟩ "j" "J" none c7map
    { stop := "255", route := "G6", date := "d",
      schedules := [{ time := "08:00" }], url := "u" }
    { time := "08:00" } (by decide) (by decide) (by decide)

/-- The malformed-time group state: pair A carries the malformed "xx:yy",
pair B the well-formed "08:05". -/
def c9map : String → Option ScheduleResponse := fun k =>
  if k = "j-255-G6"
  then some { stop := "255", route := "G6", date := "d",
              schedules := [{ time := "xx:yy" }], url := "u" }
  else if k = "j-359-P18"
  then some { stop := "359", route := "P18", date := "d",
              schedules := [{ time := "08:05" }], url := "u" }
  else none

/-- C9 counterexample: `timeToMinutes` returns the finite value 0 (not
positive infinity) on the malformed input "::", and in the sorted
group-merged result the record with malformed time "xx:yy" appears ahead of
the well-formed "08:05". -/
theorem C9_counterexample :
    timeToMinutes "::" = .finite 0 ∧
    getMergedSchedules c6group c9map
      = [ { schedule := { time := "xx:yy" }, route := "G6", stopId := "255" },
          { schedule := { time := "08:05" }, route := "P18", stopId := "359" } ] := by
  decide

theorem splitOnChar_head (sep : Char) (a b : List Char) (ha : sep ∉ a) :
    splitOnChar sep (a ++ sep :: b) = a :: splitOnCharAux sep b [] := by
  rw [splitOnChar, splitOnCharAux_found sep a b [] ha]
  rfl

/-- C9 amended: the handler `timeToMinutes` returns positive infinity when
the hour field is non-numeric (as in "xx:yy"), so such values sort last under
its comparisons; but the page-local conversion used by the group merge maps a
malformed time to NaN, which the sort comparator treats as equal to
everything, so a malformed record keeps its position and can appear ahead of
well-formed times. -/
theorem C9_malformed_behavior :
    (∀ hh mm : String, ':' ∉ hh.toList → jsNumberChars hh.toList = .nan →
      timeToMinutes (hh ++ ":" ++ mm) = .posInf) ∧
    pageTimeToMinutes "xx:yy" = .nan ∧
    (∀ d e : MergedDeparture, pageTimeToMinutes d.schedule.time = .nan →
      mergedLe d e = true ∧ mergedLe e d = true) := by
  refine ⟨?_, by decide, ?_⟩
  · intro hh mm hcolon hnan
    have hlist : (hh ++ ":" ++ mm).toList = hh.toList ++ ':' :: mm.toList := by
      show (hh ++ ":" ++ mm).data = hh.data ++ ':' :: mm.data
      rw [String.data_append, String.data_append]
      simp
    unfold timeToMinutes
    rw [hlist, splitOnChar_head ':' hh.toList mm.toList hcolon, List.map_cons, hnan]
    simp only [List.getElem?_cons_zero]
    simp
  · intro d e hd
    unfold mergedLe
    rw [hd]
    refine ⟨?_, ?_⟩ <;> cases hke : pageTimeToMinutes e.schedule.time <;> simp [jsCompPos]

/-- Witness for the amended C9 at the strings of the scenario. -/
theorem C9_witness :
    timeToMinutes ("xx" ++ ":" ++ "yy") = .posInf ∧
    (mergedLe { schedule := { time := "xx:yy" }, route := "G6", stopId := "255" }
        { schedule := { time := "08:05" }, route := "P18", stopId := "359" } = true ∧
      mergedLe { schedule := { time := "08:05" }, route := "P18", stopId := "359" }
        { schedule := { time := "xx:yy" }, route := "G6", stopId := "255" } = true) :=
  ⟨C9_malformed_behavior.1 "xx" "yy" (by decide) (by decide),
    C9_malformed_behavior.2.2
      { schedule := { time := "xx:yy" }, route := "G6", stopId := "255" }
      { schedule := { time := "08:05" }, route := "P18", stopId := "359" } (by decide)⟩

/-- C10: round-trip of the time utilities: parsing the rendered "HH:MM" of
`s` seconds since midnight yields exactly `s / 60` whole minutes (only the
sub-minute remainder is lost), and the composition is monotone
non-decreasing. -/
theorem C10_time_roundtrip (s : Nat) :
    timeToMinutes (secondsToTime s) = .finite (s / 60) ∧
    ∀ t : Nat, s ≤ t →
      finiteLe (timeToMinutes (secondsToTime s)) (timeToMinutes (secondsToTime t)) := by
  refine ⟨timeToMinutes_secondsToTime s, ?_⟩
  intro t hst
  exact ⟨s / 60, t / 60, timeToMinutes_secondsToTime s, timeToMinutes_secondsToTime t,
    Nat.div_le_div_right hst⟩

/-- Witness for C10 at 3725 and 7300 seconds. -/
theorem C10_witness :
    timeToMinutes (secondsToTime 3725) = .finite 62 ∧
    finiteLe (timeToMinutes (secondsToTime 3725)) (timeToMinutes (secondsToTime 7300)) :=
  ⟨(C10_time_roundtrip 3725).1, (C10_time_roundtrip 3725).2 7300 (by decide)⟩

end MBus
